import Mathlib

/-!
Verification of the SMART-on-FHIR node client (`src/client.ts`) against its
specification. The client is embedded shallowly: the HTTP transport (axios)
is a scripted oracle handing one outcome per dispatched call, the client
state is an explicit value threaded through the runs, and each run records
the observable events (dispatched HTTP calls and refresh attempts).
-/

namespace SmartClient

/-- A JSON-like value: the shape of HTTP request and response bodies and of
the `tokenResponse` object in the client state. Objects are association
lists of fields, observed through property lookup as JavaScript objects are. -/
inductive JSON where
  | null
  | str (s : String)
  | num (n : Int)
  | arr (elems : List JSON)
  | obj (fields : List (String × JSON))

/-- Property lookup `v[key]` on a JSON value: `undefined` (`none`) unless `v`
is an object carrying the key. This embeds one step of `getPath` from
`src/lib` (that file is missing from the sources; its step
`out ? out[key] : undefined` is modelled from its uses in `client.ts`, which
need a missing path to yield a falsy value rather than an exception). -/
def JSON.get : JSON → String → Option JSON
  | .obj fields, key => fields.lookup key
  | _, _ => none

/-- JavaScript truthiness of a JSON value. -/
def JSON.truthy : JSON → Bool
  | .null => false
  | .str s => !s.isEmpty
  | .num n => n != 0
  | .arr _ => true
  | .obj _ => true

/-- JavaScript truthiness of a possibly-`undefined` value. -/
def jsTruthy : Option JSON → Bool
  | none => false
  | some v => v.truthy

/-- Rendering of a JSON value inside a template literal (the string coercion
JavaScript applies in an interpolation). Array and object rendering is
approximated; only primitive values flow into the templates of `client.ts`. -/
def JSON.render : JSON → String
  | .null => "null"
  | .str s => s
  | .num n => toString n
  | .arr _ => ""
  | .obj _ => "[object Object]"

/-- Rendering of a possibly-`undefined` value inside a template literal. -/
def jsRender : Option JSON → String
  | none => "undefined"
  | some v => v.render

/-- The object spread of `a` then `b` (all fields of `a`, overwritten by the
same-named fields of `b`, then the remaining fields of `b`), observed through
property lookup. -/
def spread {β : Type} (a b : List (String × β)) : List (String × β) :=
  a.filter (fun p => (b.lookup p.1).isNone) ++ b

/-- The fields the object spread takes from a JSON value: an object
contributes its fields, primitives contribute none (index-spreading of
strings does not occur for the token responses `client.ts` spreads). -/
def JSON.spreadFields : JSON → List (String × JSON)
  | .obj fs => fs
  | _ => []

/-- The SMART client state (`SMART.ClientState`), restricted to the fields
`client.ts` reads. `tokenResponse` is an optional JavaScript object, kept as
an association list so that refresh-response merging and field deletion keep
their object semantics. -/
structure ClientState where
  serverUrl : String
  tokenUri : String := ""
  authorizeUri : Option String := none
  scope : String := ""
  tokenResponse : Option (List (String × JSON)) := none

/-- `getPath(this.state, "tokenResponse.access_token")` (client.ts line 50). -/
def ClientState.accessToken (st : ClientState) : Option JSON :=
  st.tokenResponse.bind (fun tr => tr.lookup "access_token")

/-- `getPath(this.state, "tokenResponse.refresh_token")` (lines 66 and 100). -/
def ClientState.refreshToken (st : ClientState) : Option JSON :=
  st.tokenResponse.bind (fun tr => tr.lookup "refresh_token")

/-- Truthiness of the refresh token: the test of line 66 and the `refresh`
precondition of line 97. Line 97 also tests `this.state.tokenResponse`
itself, but an object is always truthy, so the conjunction reduces to the
truthiness of the token read through the optional `tokenResponse`. -/
def ClientState.hasRefreshToken (st : ClientState) : Bool :=
  jsTruthy st.refreshToken

/-- `serverUrl.replace(/\/?$/, "/")` (line 48). A non-global `replace`
rewrites only the first match of the regex; `\/?$` first matches the final
character when it is a slash (that slash is replaced by a slash, leaving the
string unchanged) and otherwise matches the empty string at the end of the
string (appending a slash). -/
def resolveBaseURL (s : String) : String :=
  if s.data.getLast? == some (Char.ofNat 47) then s else s ++ "/"

/-- The base address the specification describes: `serverUrl` with exactly
one trailing slash enforced, collapsing or appending as needed. This follows
the words of the spec, for comparison with `resolveBaseURL` from the code. -/
def specOneTrailingSlash (s : String) : String :=
  String.mk ((s.data.reverse.dropWhile (fun c => c == Char.ofNat 47)).reverse) ++ "/"

/-- Observable actions of a run: each dispatched HTTP call, with the axios
config fields `client.ts` sets, and each entry into `refresh`. -/
inductive Event where
  | http (method url : String) (baseURL : Option String)
      (headers : List (String × String)) (body : Option String)
  | refreshAttempt

/-- The number of `refresh` invocations recorded in a trace. -/
def countRefresh (evs : List Event) : Nat :=
  evs.countP (fun e => match e with | .refreshAttempt => true | _ => false)

/-- The number of HTTP dispatches recorded in a trace. -/
def countHttp (evs : List Event) : Nat :=
  evs.countP (fun e => match e with | .http _ _ _ _ _ => true | _ => false)

/-- The outcome the axios transport produces for one dispatched request: a
resolution carrying response data, a rejection carrying the response the
server sent (status and data), or a rejection with no response received. -/
inductive HttpOutcome where
  | success (data : JSON)
  | httpError (status : Nat) (data : JSON)
  | networkError

/-- The scripted transport: the outcomes of the dispatched calls, in order. -/
abbrev Oracle := List HttpOutcome

/-- The values a run can reject with: `new Error(msg)` instances created in
`client.ts`, the axios error object itself rethrown unchanged (carrying the
response, or carrying no response for a transport failure), and a JavaScript
runtime `TypeError`. -/
inductive JSError where
  | jsError (msg : String)
  | axiosErr (status : Nat) (data : JSON)
  | axiosNetworkErr
  | typeError (msg : String)

/-- Modelled from the spec: `getErrorText("no_fhir_response")` comes from
`src/lib`, which is missing from the sources; the spec describes the result
as a fixed "no response from server" error, so it is a fixed message. -/
def noFhirResponseMessage : String := "No response from server"

/-- An axios request config, restricted to the fields `client.ts` reads or
sets. A bare URL string argument is normalized to a config carrying only
`url` before `request` or `getPages` proceeds. -/
structure ReqOptions where
  url : String := ""
  method : String := "GET"
  headers : List (String × String) := []
  data : Option String := none
  baseURL : Option String := none

/-- A resolved axios response. -/
structure AxiosResponse where
  status : Nat
  data : JSON

/-- The options value after the in-place mutations `request` performs before
dispatching: `baseURL` set from `serverUrl` (line 48) and, when the access
token is truthy, an `Authorization` bearer header merged over the callers
headers (lines 50 to 56). -/
def sendOptions (st : ClientState) (opts : ReqOptions) : ReqOptions :=
  let opts1 := { opts with baseURL := some (resolveBaseURL st.serverUrl) }
  if jsTruthy st.accessToken then
    { opts1 with
      headers := spread opts1.headers
        [("Authorization", "Bearer " ++ jsRender st.accessToken)] }
  else opts1

/-- The event recording the dispatch of a configured request. -/
def dispatchEvent (o : ReqOptions) : Event :=
  .http o.method o.url o.baseURL o.headers o.data

/-- A hexadecimal digit (uppercase), for percent-encoding. -/
def hexDigit (n : Nat) : Char :=
  if n < 10 then Char.ofNat (48 + n) else Char.ofNat (55 + n)

/-- The characters `querystring.escape` leaves unencoded: the
`encodeURIComponent` unreserved set. -/
def qsUnreserved (c : Char) : Bool :=
  c.isAlphanum || c == Char.ofNat 45 || c == Char.ofNat 95 || c == Char.ofNat 46 ||
    c == Char.ofNat 33 || c == Char.ofNat 126 || c == Char.ofNat 42 ||
    c == Char.ofNat 39 || c == Char.ofNat 40 || c == Char.ofNat 41

/-- Percent-encoding of one character as the `%XX` codes of its UTF-8 bytes. -/
def percentEncodeChar (c : Char) : String :=
  (String.singleton c).toUTF8.toList.foldl
    (fun acc b =>
      acc ++ "%" ++ String.mk [hexDigit (b.toNat / 16), hexDigit (b.toNat % 16)]) ""

/-- Node `querystring.escape`: percent-encoding keeping the unreserved set. -/
def qsEscape (s : String) : String :=
  s.toList.foldl
    (fun acc c =>
      acc ++ (if qsUnreserved c then String.singleton c else percentEncodeChar c)) ""

/-- Node `querystring.stringify` on an object with string values. -/
def qsStringify (fields : List (String × String)) : String :=
  String.intercalate "&" (fields.map (fun p => qsEscape p.1 ++ "=" ++ qsEscape p.2))

/-- The string `querystring.stringify` uses for a primitive value. -/
def JSON.qsValue : JSON → String
  | .str s => s
  | .num n => toString n
  | _ => ""

/-- The settled outcome of one `Client.refresh` call: the value it resolves
or rejects with, the client state after the call, the unconsumed tail of the
transport script, and the observable events of the call. -/
structure RefreshRun where
  result : Except JSError JSON
  state : ClientState
  leftover : Oracle
  events : List Event

/-- `Client.refresh` (client.ts lines 95 to 124) run against the scripted
transport: the head of the oracle is the outcome of the POST it dispatches.
`none` means the transport was invoked but the script is exhausted, so the
run cannot be evaluated further. -/
def runRefresh (st : ClientState) (oracle : Oracle) : Option RefreshRun :=
  if st.hasRefreshToken = false then
    some ⟨.error (.jsError "Trying to refresh but there is no refresh token"),
      st, oracle, [.refreshAttempt]⟩
  else
    let tok := (st.refreshToken.map JSON.qsValue).getD ""
    let body := qsStringify [("grant_type", "refresh_token"), ("refresh_token", tok)]
    let ev := Event.http "POST" st.tokenUri none
      [("content-type", "application/x-www-form-urlencoded")] (some body)
    match oracle with
    | [] => none
    | .success data :: rest =>
      let merged := spread (st.tokenResponse.getD []) data.spreadFields
      some ⟨.ok data, { st with tokenResponse := some merged }, rest,
        [.refreshAttempt, ev]⟩
    | .httpError status d :: rest =>
      if status == 401 then
        some ⟨.error (.axiosErr status d),
          { st with tokenResponse :=
              st.tokenResponse.map (fun tr => tr.filter (fun p => p.1 ≠ "refresh_token")) },
          rest, [.refreshAttempt, ev]⟩
      else
        some ⟨.error (.axiosErr status d), st, rest, [.refreshAttempt, ev]⟩
    | .networkError :: rest =>
      some ⟨.error .axiosNetworkErr, st, rest, [.refreshAttempt, ev]⟩

/-- The settled outcome of one `Client.request` call: result, state after the
call, unconsumed transport script, observable events, and the final value of
the caller-shared options object (mutated in place by lines 48 to 56 at each
entry into `request`). -/
structure RequestRun where
  result : Except JSError AxiosResponse
  state : ClientState
  leftover : Oracle
  events : List Event
  finalOptions : ReqOptions

/-- The JavaScript truthiness of `issues.length` where `issues` is what
`getPath` returned for `response.data.issue` (line 75): reading `.length` of
`undefined` or `null` throws a `TypeError`; a string or array has a numeric
length; a number has no `length` property (`undefined`, falsy); an object is
read at its `length` field. -/
def lengthTruthy : Option JSON → Except String Bool
  | none => .error "Cannot read properties of undefined (reading length)"
  | some .null => .error "Cannot read properties of null (reading length)"
  | some (.str s) => .ok (!s.isEmpty)
  | some (.num _) => .ok false
  | some (.arr xs) => .ok (!xs.isEmpty)
  | some (.obj fs) => .ok (jsTruthy (fs.lookup "length"))

/-- One line of the combined OperationOutcome message: the template
`o.severity o.code o.diagnostics` of line 77. -/
def issueLine (o : JSON) : String :=
  jsRender (o.get "severity") ++ " " ++ jsRender (o.get "code") ++ " " ++
    jsRender (o.get "diagnostics")

/-- The test `resourceType == "OperationOutcome"` of line 75. The comparison
in the source is loose equality; for the value shapes a JSON body can produce
at that field it is string equality. -/
def isOperationOutcome (d : JSON) : Bool :=
  match d.get "resourceType" with
  | some (.str s) => s == "OperationOutcome"
  | _ => false

/-- The error the catch handler of `request` rejects with for an error
carrying a response, once the 401-with-refresh-token branch has not taken
over (lines 72 to 81): an OperationOutcome body whose `issue` has a truthy
length turns into the combined issue message, and otherwise the original
error is rethrown. Reading the length of an absent `issue` list throws a
`TypeError`, and so does mapping over a non-array `issue` whose length was
truthy, as `body.issue.map` does. -/
def responseErrorValue (status : Nat) (d : JSON) : JSError :=
  let issues := d.get "issue"
  if isOperationOutcome d then
    match lengthTruthy issues with
    | .error msg => .typeError msg
    | .ok true =>
      match issues with
      | some (.arr os) => .jsError (String.intercalate "\n" (os.map issueLine))
      | _ => .typeError "issues.map is not a function"
    | .ok false => .axiosErr status d
  else .axiosErr status d

/-- `Client.request` (client.ts lines 42 to 88) run against the scripted
transport. Each axios dispatch consumes the head of the oracle. `fuel`
bounds the number of recursive replays; the code itself has no cap, and
every theorem states the fuel it needs. `none` means the oracle or the fuel
ran out before the run settled. -/
def runRequest : Nat → ClientState → ReqOptions → Oracle → Option RequestRun
  | 0, _, _, _ => none
  | fuel + 1, st, opts, oracle =>
    let sent := sendOptions st opts
    let ev := dispatchEvent sent
    match oracle with
    | [] => none
    | .success data :: rest => some ⟨.ok ⟨200, data⟩, st, rest, [ev], sent⟩
    | .networkError :: rest =>
      some ⟨.error (.jsError noFhirResponseMessage), st, rest, [ev], sent⟩
    | .httpError status d :: rest =>
      if status == 401 && st.hasRefreshToken then
        match runRefresh st rest with
        | none => none
        | some rr =>
          match rr.result with
          | .error e => some ⟨.error e, rr.state, rr.leftover, ev :: rr.events, sent⟩
          | .ok _ =>
            (runRequest fuel rr.state sent rr.leftover).map
              (fun out => { out with events := ev :: rr.events ++ out.events })
      else
        some ⟨.error (responseErrorValue status d), st, rest, [ev], sent⟩

/-- Modelled from the spec: `getBundleURL` comes from `src/lib`, which is
missing from the sources; the spec says to scan the bundle link list for an
entry whose relation label equals the given one and follow its URL. -/
def getBundleURL (bundle : JSON) (rel : String) : Option String :=
  match bundle.get "link" with
  | some (.arr links) =>
    (links.find? (fun l => match l.get "relation" with
      | some (.str r) => r == rel
      | _ => false)).bind
      (fun l => match l.get "url" with
        | some (.str u) => some u
        | _ => none)
  | _ => none

/-- `bundle.entry || []` as consumed by `result.push.apply` (line 327): the
entry array, or no entries when the field is absent or not an array. -/
def bundleEntries (bundle : JSON) : List JSON :=
  match bundle.get "entry" with
  | some (.arr es) => es
  | _ => []

/-- The settled outcome of one `Client.getPages` call. -/
structure PagesRun where
  result : Except JSError (List JSON)
  state : ClientState
  leftover : Oracle
  events : List Event

/-- `Client.getPages` (client.ts lines 317 to 336) run against the scripted
transport. `maxPages` is the page counter, a JavaScript number (an integer
here): line 328 pre-decrements it after consuming each page and follows the
next link only while the decremented value is truthy (nonzero). The next
page reuses the caller-shared options object (mutated in place by `request`)
with the URL overwritten. `fuel` bounds the recursion depth as in
`runRequest`. -/
def runGetPages : Nat → ClientState → ReqOptions → Int → List JSON → Oracle → Option PagesRun
  | 0, _, _, _, _, _ => none
  | fuel + 1, st, opts, maxPages, result, oracle =>
    match runRequest (fuel + 1) st opts oracle with
    | none => none
    | some run =>
      match run.result with
      | .error e => some ⟨.error e, run.state, run.leftover, run.events⟩
      | .ok res =>
        let bundle := res.data
        let newResult := result ++ bundleEntries bundle
        if maxPages - 1 != 0 then
          match getBundleURL bundle "next" with
          | some nextUrl =>
            (runGetPages fuel run.state { run.finalOptions with url := nextUrl }
                (maxPages - 1) newResult run.leftover).map
              (fun out => { out with events := run.events ++ out.events })
          | none => some ⟨.ok newResult, run.state, run.leftover, run.events⟩
        else some ⟨.ok newResult, run.state, run.leftover, run.events⟩

/-! Concrete fixtures used to instantiate the theorems. -/

/-- A client state with no token response. -/
def stPlain : ClientState := { serverUrl := "http://fhir.example.com" }

/-- A client state holding an access token, a refresh token and a patient. -/
def stTok : ClientState :=
  { serverUrl := "http://fhir.example.com",
    tokenUri := "http://auth.example.com/token",
    tokenResponse := some [("access_token", JSON.str "A1"),
      ("refresh_token", JSON.str "R1"), ("patient", JSON.str "p1")] }

/-- A client state whose token response lacks a refresh token. -/
def stNoRT : ClientState :=
  { serverUrl := "http://fhir.example.com",
    tokenUri := "http://auth.example.com/token",
    tokenResponse := some [("access_token", JSON.str "A1")] }

/-- A plain request spec. -/
def optsPlain : ReqOptions := { url := "Patient" }

/-- A request spec with caller-supplied headers, one of them Authorization. -/
def optsHdr : ReqOptions :=
  { url := "Patient",
    headers := [("Accept", "application/json"), ("Authorization", "Bearer stale")] }

/-- An OperationOutcome body with the single issue of the spec example. -/
def ooIssueBody : JSON :=
  .obj [("resourceType", .str "OperationOutcome"),
    ("issue", .arr [.obj [("severity", .str "error"), ("code", .str "invalid"),
      ("diagnostics", .str "bad param")]])]

/-- An OperationOutcome body with no issue list at all. -/
def ooNoIssueBody : JSON := .obj [("resourceType", .str "OperationOutcome")]

/-- A bundle page with the given string entries and optional next link. -/
def mkPage (entries : List String) (next : Option String) : JSON :=
  .obj ([("resourceType", .str "Bundle"), ("entry", .arr (entries.map JSON.str))] ++
    (match next with
     | some u => [("link", .arr [.obj [("relation", .str "next"), ("url", .str u)]])]
     | none => []))

/-- Three linked pages: page1 to page2 to page3, page3 with no next link. -/
def oracle3 : Oracle :=
  [.success (mkPage ["e1", "e2"] (some "page2")),
   .success (mkPage ["e3", "e4"] (some "page3")),
   .success (mkPage ["e5", "e6"] none)]

/-- Two linked pages: page1 to page2, page2 with no next link. -/
def oracle2 : Oracle :=
  [.success (mkPage ["e1", "e2"] (some "page2")),
   .success (mkPage ["e3", "e4"] none)]

/-- The token response fields of `stTok`, as an association list. -/
def mergeOld : List (String × JSON) :=
  [("access_token", JSON.str "A1"), ("refresh_token", JSON.str "R1"),
   ("patient", JSON.str "p1")]

/-- A refresh response carrying a new access token and a new field. -/
def mergeNew : List (String × JSON) :=
  [("access_token", JSON.str "A2"), ("expires_in", JSON.num 3600)]

end SmartClient

namespace SmartClient

/-! Helper lemmas. -/

/-- Lookup through an object spread: the second object wins on shared keys. -/
theorem lookup_spread {β : Type} (a b : List (String × β)) (k : String) :
    (spread a b).lookup k = ((b.lookup k).or (a.lookup k)) := by
  induction a with
  | nil =>
    simp only [spread, List.filter_nil, List.nil_append, List.lookup_nil]
    cases b.lookup k <;> rfl
  | cons p a ih =>
    obtain ⟨k1, v⟩ := p
    by_cases hk : k = k1
    · subst hk
      have hbeq : (k == k) = true := beq_self_eq_true k
      cases hb : b.lookup k with
      | some w =>
        have hfilter : spread ((k, v) :: a) b = spread a b := by
          simp [spread, List.filter_cons, hb]
        rw [hfilter, ih, hb]
        rfl
      | none =>
        have hfilter : spread ((k, v) :: a) b = (k, v) :: spread a b := by
          simp [spread, List.filter_cons, hb]
        rw [hfilter]
        simp only [List.lookup, hbeq, hb]
        rfl
    · have hbeq : (k == k1) = false := by simp [hk]
      cases hb : b.lookup k1 with
      | some w =>
        have hfilter : spread ((k1, v) :: a) b = spread a b := by
          simp [spread, List.filter_cons, hb]
        rw [hfilter, ih]
        simp only [List.lookup, hbeq]
      | none =>
        have hfilter : spread ((k1, v) :: a) b = (k1, v) :: spread a b := by
          simp [spread, List.filter_cons, hb]
        rw [hfilter]
        simp only [List.lookup, hbeq]
        exact ih

/-- Deleting a key from an association list makes its lookup `undefined`. -/
theorem lookup_filter_ne {β : Type} (l : List (String × β)) (k : String) :
    (l.filter (fun p => p.1 ≠ k)).lookup k = none := by
  induction l with
  | nil => rfl
  | cons p l ih =>
    obtain ⟨k1, v⟩ := p
    by_cases hk : k1 = k
    · have hdec : (decide ((k1, v).1 ≠ k)) = false := by simp [hk]
      simp only [List.filter_cons, hdec, Bool.false_eq_true, if_false]
      exact ih
    · have hdec : (decide ((k1, v).1 ≠ k)) = true := by simp [hk]
      have hbeq : (k == k1) = false := by simp [Ne.symm hk]
      simp only [List.filter_cons, hdec, if_true, List.lookup, hbeq]
      exact ih

/-- The projections of the configured request: `request` overwrites only
`baseURL` and (possibly) `headers`, never the URL, method or body. -/
theorem sendOptions_spec (st : ClientState) (opts : ReqOptions) :
    (sendOptions st opts).url = opts.url ∧
      (sendOptions st opts).method = opts.method ∧
      (sendOptions st opts).data = opts.data ∧
      (sendOptions st opts).baseURL = some (resolveBaseURL st.serverUrl) := by
  simp only [sendOptions]
  split <;> exact ⟨rfl, rfl, rfl, rfl⟩

/-- A `refresh` call that passes its precondition records exactly one refresh
attempt and dispatches exactly one HTTP call. -/
theorem runRefresh_events (st : ClientState) (oracle : Oracle)
    (hrt : st.hasRefreshToken = true) (rr : RefreshRun)
    (h : runRefresh st oracle = some rr) :
    countRefresh rr.events = 1 ∧ countHttp rr.events = 1 := by
  rw [runRefresh, hrt] at h
  simp only [Bool.true_eq_false, if_false] at h
  cases oracle with
  | nil => exact absurd h (by simp)
  | cons o rest =>
    cases o with
    | success d =>
      injection h with h
      rw [← h]
      exact ⟨rfl, rfl⟩
    | httpError status d =>
      by_cases hs : (status == 401) = true
      · simp only [hs, if_true] at h
        injection h with h
        rw [← h]
        exact ⟨rfl, rfl⟩
      · simp only [Bool.not_eq_true] at hs
        simp only [hs, Bool.false_eq_true, if_false] at h
        injection h with h
        rw [← h]
        exact ⟨rfl, rfl⟩
    | networkError =>
      injection h with h
      rw [← h]
      exact ⟨rfl, rfl⟩

/-- The first event of any settling `request` call is the dispatch of the
configured request. -/
theorem runRequest_head_event (fuel : Nat) (st : ClientState) (opts : ReqOptions)
    (o : HttpOutcome) (rest : Oracle) (run : RequestRun)
    (h : runRequest (fuel + 1) st opts (o :: rest) = some run) :
    run.events.head? = some (dispatchEvent (sendOptions st opts)) := by
  cases o with
  | success d =>
    rw [runRequest] at h
    injection h with h
    rw [← h]
    rfl
  | networkError =>
    rw [runRequest] at h
    injection h with h
    rw [← h]
    rfl
  | httpError status d =>
    rw [runRequest] at h
    by_cases hc : (status == 401 && st.hasRefreshToken) = true
    · simp only [hc, if_true] at h
      cases hrr : runRefresh st rest with
      | none => rw [hrr] at h; exact absurd h (by simp)
      | some rr =>
        rw [hrr] at h
        cases hres : rr.result with
        | error e =>
          simp only [hres] at h
          injection h with h
          rw [← h]
          rfl
        | ok dd =>
          simp only [hres] at h
          obtain ⟨out, _, hfo⟩ := Option.map_eq_some'.mp h
          rw [← hfo]
          rfl
    · simp only [Bool.not_eq_true] at hc
      simp only [hc, Bool.false_eq_true, if_false] at h
      injection h with h
      rw [← h]
      rfl

/-- Deleting `refresh_token` from the token response makes the refresh token
check false. -/
theorem hasRefreshToken_delete (st : ClientState) :
    ClientState.hasRefreshToken
      ({ st with tokenResponse :=
          st.tokenResponse.map (fun tr => tr.filter (fun p => p.1 ≠ "refresh_token")) }) =
      false := by
  unfold ClientState.hasRefreshToken ClientState.refreshToken
  cases htr : st.tokenResponse with
  | none => rfl
  | some tr =>
    show jsTruthy ((tr.filter (fun p => p.1 ≠ "refresh_token")).lookup "refresh_token") = false
    rw [lookup_filter_ne tr "refresh_token"]
    rfl

end SmartClient

namespace SmartClient

/-- The regex-replace form of the base URL as a propositional conditional. -/
theorem resolveBaseURL_eq (s : String) :
    resolveBaseURL s =
      if s.data.getLast? = some (Char.ofNat 47) then s else s ++ "/" := by
  unfold resolveBaseURL
  by_cases h : s.data.getLast? = some (Char.ofNat 47)
  · rw [if_pos (by simp [h]), if_pos h]
  · rw [if_neg (by simp [h]), if_neg h]

/-- A URL already ending in a slash is left unchanged by line 48. -/
theorem resolveBaseURL_append_slash (s : String) :
    resolveBaseURL (s ++ "/") = s ++ "/" := by
  have h : (s ++ "/").data.getLast? = some (Char.ofNat 47) := by
    rw [String.data_append]
    exact List.getLast?_concat _
  rw [resolveBaseURL_eq, if_pos h]

/-- C3 counterexample: for a `serverUrl` with two trailing slashes the code
leaves both slashes in place, so the effective base address is not
`serverUrl` with exactly one trailing slash enforced; the replacement only
appends a slash when the last character is not already a slash. -/
theorem baseURL_multiple_trailing_slashes_counterexample :
    resolveBaseURL "http://example.com//" = "http://example.com//" ∧
    specOneTrailingSlash "http://example.com//" = "http://example.com/" ∧
    resolveBaseURL "http://example.com//" ≠
      specOneTrailingSlash "http://example.com//" ∧
    (sendOptions { serverUrl := "http://example.com//" } { url := "Patient" }).baseURL =
      some "http://example.com//" := by
  exact ⟨rfl, rfl, by decide, rfl⟩

/-- C3 (amended): the effective base address used by `request` equals
`serverUrl` with a trailing slash appended when the last character is not a
slash, and equals `serverUrl` unchanged when it already ends with a slash
(extra trailing slashes are preserved, not collapsed); hence supplying
`serverUrl` with or without a single trailing slash resolves to the same
base address. -/
theorem request_baseURL_amended (st : ClientState) (opts : ReqOptions) :
    (sendOptions st opts).baseURL = some (resolveBaseURL st.serverUrl) ∧
    (∀ fuel o rest run, runRequest (fuel + 1) st opts (o :: rest) = some run →
      run.events.head? = some (dispatchEvent (sendOptions st opts))) ∧
    (st.serverUrl.data.getLast? ≠ some (Char.ofNat 47) →
      resolveBaseURL st.serverUrl = st.serverUrl ++ "/" ∧
      resolveBaseURL (st.serverUrl ++ "/") = st.serverUrl ++ "/") ∧
    (st.serverUrl.data.getLast? = some (Char.ofNat 47) →
      resolveBaseURL st.serverUrl = st.serverUrl) := by
  refine ⟨(sendOptions_spec st opts).2.2.2,
    fun fuel o rest run h => runRequest_head_event fuel st opts o rest run h,
    ?_, ?_⟩
  · intro h47
    exact ⟨by rw [resolveBaseURL_eq, if_neg h47], resolveBaseURL_append_slash _⟩
  · intro h47
    rw [resolveBaseURL_eq, if_pos h47]

/-- C3 witness. -/
theorem request_baseURL_amended_witness :
    resolveBaseURL "http://fhir.example.com" = "http://fhir.example.com" ++ "/" ∧
    resolveBaseURL ("http://fhir.example.com" ++ "/") =
      "http://fhir.example.com" ++ "/" ∧
    (sendOptions stPlain optsPlain).baseURL =
      some (resolveBaseURL "http://fhir.example.com") := by
  have h := request_baseURL_amended stPlain optsPlain
  have h3 := h.2.2.1 (by decide)
  exact ⟨h3.1, h3.2, h.1⟩

/-- C4: while an access token is present (truthy), the dispatched
Authorization header is exactly `Bearer <access_token>`, overriding any
caller-supplied Authorization header while preserving the caller's other
headers; with no access token the caller's headers are sent unchanged; the
first event of any settling `request` run is the dispatch so configured. -/
theorem request_authorization_header (st : ClientState) (opts : ReqOptions) :
    (∀ v, st.accessToken = some v → v.truthy = true →
      ((sendOptions st opts).headers.lookup "Authorization" =
          some ("Bearer " ++ v.render) ∧
        ∀ k, k ≠ "Authorization" →
          (sendOptions st opts).headers.lookup k = opts.headers.lookup k)) ∧
    (jsTruthy st.accessToken = false →
      (sendOptions st opts).headers = opts.headers) ∧
    (∀ fuel o rest run, runRequest (fuel + 1) st opts (o :: rest) = some run →
      run.events.head? = some (dispatchEvent (sendOptions st opts))) := by
  refine ⟨?_, ?_, fun fuel o rest run h => runRequest_head_event fuel st opts o rest run h⟩
  · intro v hv htr
    have htru : jsTruthy st.accessToken = true := by rw [hv]; exact htr
    have hsend : (sendOptions st opts).headers =
        spread opts.headers [("Authorization", "Bearer " ++ jsRender st.accessToken)] := by
      simp only [sendOptions]
      rw [if_pos htru]
    rw [hsend]
    constructor
    · have hone : List.lookup "Authorization"
          [("Authorization", "Bearer " ++ jsRender st.accessToken)] =
          some ("Bearer " ++ jsRender st.accessToken) := by
        simp [List.lookup]
      rw [lookup_spread, hone, hv]
      rfl
    · intro k hk
      have hbeq : (k == "Authorization") = false := by simp [hk]
      have hnone : List.lookup k
          [("Authorization", "Bearer " ++ jsRender st.accessToken)] = none := by
        simp [List.lookup, hbeq]
      rw [lookup_spread, hnone]
      rfl
  · intro hfalse
    simp only [sendOptions]
    rw [if_neg (by simp [hfalse])]

/-- C4 witness. -/
theorem request_authorization_header_witness :
    (sendOptions stTok optsHdr).headers.lookup "Authorization" = some "Bearer A1" ∧
    (sendOptions stTok optsHdr).headers.lookup "Accept" = some "application/json" ∧
    (sendOptions stPlain optsHdr).headers = optsHdr.headers := by
  have h := request_authorization_header stTok optsHdr
  have h1 := h.1 (.str "A1") rfl rfl
  have h2 := (request_authorization_header stPlain optsHdr).2.1 rfl
  refine ⟨?_, ?_, h2⟩
  · exact h1.1
  · have hk := h1.2 "Accept" (by decide)
    rw [hk]
    rfl

/-- C5: when `refresh` fails with a received 401 response, `refresh_token` is
deleted from `tokenResponse` (and nothing else in the state changes) and the
original error still propagates; on a non-401 response failure or a network
failure the error propagates with the state completely untouched. -/
theorem refresh_failure_state (st : ClientState) (rest : Oracle)
    (hrt : st.hasRefreshToken = true) :
    (∀ d run, runRefresh st (.httpError 401 d :: rest) = some run →
      run.result = .error (.axiosErr 401 d) ∧
      run.state = { st with tokenResponse :=
        st.tokenResponse.map (fun tr => tr.filter (fun p => p.1 ≠ "refresh_token")) } ∧
      run.state.hasRefreshToken = false ∧
      run.leftover = rest) ∧
    (∀ status d run, status ≠ 401 →
      runRefresh st (.httpError status d :: rest) = some run →
      run.result = .error (.axiosErr status d) ∧ run.state = st ∧
        run.leftover = rest) ∧
    (∀ run, runRefresh st (.networkError :: rest) = some run →
      run.result = .error .axiosNetworkErr ∧ run.state = st ∧
        run.leftover = rest) := by
  refine ⟨?_, ?_, ?_⟩
  · intro d run h
    rw [runRefresh, hrt] at h
    simp only [Bool.true_eq_false, if_false] at h
    have h401 : ((401 : Nat) == 401) = true := rfl
    rw [if_pos h401] at h
    injection h with h
    rw [← h]
    exact ⟨rfl, rfl, hasRefreshToken_delete st, rfl⟩
  · intro status d run hst h
    rw [runRefresh, hrt] at h
    simp only [Bool.true_eq_false, if_false] at h
    rw [if_neg (by simp [hst])] at h
    injection h with h
    rw [← h]
    exact ⟨rfl, rfl, rfl⟩
  · intro run h
    rw [runRefresh, hrt] at h
    simp only [Bool.true_eq_false, if_false] at h
    injection h with h
    rw [← h]
    exact ⟨rfl, rfl, rfl⟩

/-- C5 witness. -/
theorem refresh_failure_state_witness :
    stTok.hasRefreshToken = true ∧
    (runRefresh stTok [.httpError 401 (.str "denied")]).map
        (fun r => r.state.hasRefreshToken) = some false ∧
    (runRefresh stTok [.httpError 500 (.str "boom")]).map (fun r => r.state) =
      some stTok := by
  have hrun1 : runRefresh stTok [.httpError 401 (.str "denied")] =
      some ⟨.error (.axiosErr 401 (.str "denied")),
        ({ stTok with tokenResponse := some [("access_token", JSON.str "A1"), ("patient", JSON.str "p1")] }),
        [], [.refreshAttempt,
          .http "POST" "http://auth.example.com/token" none
            [("content-type", "application/x-www-form-urlencoded")]
            (some "grant_type=refresh_token&refresh_token=R1")]⟩ := rfl
  have hrun2 : runRefresh stTok [.httpError 500 (.str "boom")] =
      some ⟨.error (.axiosErr 500 (.str "boom")), stTok,
        [], [.refreshAttempt,
          .http "POST" "http://auth.example.com/token" none
            [("content-type", "application/x-www-form-urlencoded")]
            (some "grant_type=refresh_token&refresh_token=R1")]⟩ := rfl
  have h1 := (refresh_failure_state stTok [] rfl).1 (.str "denied") _ hrun1
  have h2 := (refresh_failure_state stTok [] rfl).2.1 500 (.str "boom") _
    (by decide) hrun2
  refine ⟨rfl, ?_, ?_⟩
  · rw [hrun1, Option.map_some']
    exact congrArg some h1.2.2.1
  · rw [hrun2, Option.map_some', h2.2.1]

/-- C6: once the refresh token is absent, no client operation re-adds it:
`refresh` is rejected before any network call with the state and the
transport script untouched, any `request` run leaves the state unchanged and
attempts no refresh, and a `request` facing a 401 surfaces the normalized
response error instead of refreshing. -/
theorem refresh_token_never_readded (st : ClientState)
    (h : st.hasRefreshToken = false) :
    (∀ oracle, runRefresh st oracle =
      some ⟨.error (.jsError "Trying to refresh but there is no refresh token"),
        st, oracle, [.refreshAttempt]⟩) ∧
    (∀ fuel opts oracle run, runRequest fuel st opts oracle = some run →
      run.state = st ∧ countRefresh run.events = 0) ∧
    (∀ fuel opts d rest run,
      runRequest (fuel + 1) st opts (.httpError 401 d :: rest) = some run →
      run.result = .error (responseErrorValue 401 d)) := by
  refine ⟨?_, ?_, ?_⟩
  · intro oracle
    rw [runRefresh, if_pos h]
  · intro fuel opts oracle run hr
    cases fuel with
    | zero => simp [runRequest] at hr
    | succ fuel =>
      cases oracle with
      | nil => simp [runRequest] at hr
      | cons o rest =>
        cases o with
        | success d =>
          rw [runRequest] at hr
          injection hr with hr
          rw [← hr]
          exact ⟨rfl, rfl⟩
        | networkError =>
          rw [runRequest] at hr
          injection hr with hr
          rw [← hr]
          exact ⟨rfl, rfl⟩
        | httpError status d =>
          rw [runRequest] at hr
          rw [if_neg (by simp [h])] at hr
          injection hr with hr
          rw [← hr]
          exact ⟨rfl, rfl⟩
  · intro fuel opts d rest run hr
    rw [runRequest] at hr
    rw [if_neg (by simp [h])] at hr
    injection hr with hr
    rw [← hr]

/-- C6 witness. -/
theorem refresh_token_never_readded_witness :
    stNoRT.hasRefreshToken = false ∧
    runRefresh stNoRT [] =
      some ⟨.error (.jsError "Trying to refresh but there is no refresh token"),
        stNoRT, [], [.refreshAttempt]⟩ ∧
    (runRequest 1 stNoRT optsPlain [.httpError 401 (.str "denied")]).map
        (fun r => (r.state, countRefresh r.events)) = some (stNoRT, 0) := by
  have h := refresh_token_never_readded stNoRT rfl
  have hrun : runRequest 1 stNoRT optsPlain [.httpError 401 (.str "denied")] =
      some ⟨.error (.axiosErr 401 (.str "denied")), stNoRT, [],
        [.http "GET" "Patient" (some "http://fhir.example.com/")
          [("Authorization", "Bearer A1")] none],
        { url := "Patient", method := "GET",
          headers := [("Authorization", "Bearer A1")], data := none,
          baseURL := some "http://fhir.example.com/" }⟩ := rfl
  have hc := h.2.1 1 optsPlain _ _ hrun
  refine ⟨rfl, h.1 [], ?_⟩
  rw [hrun, Option.map_some']
  exact congrArg some (by rw [hc.1, hc.2])

/-- C7: `refresh` fails immediately, consuming nothing from the transport,
exactly when the refresh token is absent (not truthy); otherwise it
dispatches exactly one POST to `tokenUri` with the form-encoded body
`grant_type=refresh_token&refresh_token=<token>` and content-type
`application/x-www-form-urlencoded`, consuming exactly one transport
outcome. -/
theorem refresh_precondition_and_post (st : ClientState) :
    (st.hasRefreshToken = false → ∀ oracle,
      runRefresh st oracle =
        some ⟨.error (.jsError "Trying to refresh but there is no refresh token"),
          st, oracle, [.refreshAttempt]⟩) ∧
    (∀ tok o rest run, st.hasRefreshToken = true →
      st.refreshToken = some (.str tok) →
      runRefresh st (o :: rest) = some run →
      run.leftover = rest ∧
      run.events = [.refreshAttempt,
        .http "POST" st.tokenUri none
          [("content-type", "application/x-www-form-urlencoded")]
          (some (qsStringify
            [("grant_type", "refresh_token"), ("refresh_token", tok)]))]) := by
  constructor
  · intro h oracle
    rw [runRefresh, if_pos h]
  · intro tok o rest run hrt hrtok h
    cases o with
    | success d =>
      rw [runRefresh, hrt] at h
      simp only [Bool.true_eq_false, if_false] at h
      rw [hrtok] at h
      injection h with h
      rw [← h]
      exact ⟨rfl, rfl⟩
    | httpError status d =>
      rw [runRefresh, hrt] at h
      simp only [Bool.true_eq_false, if_false] at h
      rw [hrtok] at h
      by_cases hs : (status == 401) = true
      · simp only [hs, if_true] at h
        injection h with h
        rw [← h]
        exact ⟨rfl, rfl⟩
      · simp only [Bool.not_eq_true] at hs
        simp only [hs, Bool.false_eq_true, if_false] at h
        injection h with h
        rw [← h]
        exact ⟨rfl, rfl⟩
    | networkError =>
      rw [runRefresh, hrt] at h
      simp only [Bool.true_eq_false, if_false] at h
      rw [hrtok] at h
      injection h with h
      rw [← h]
      exact ⟨rfl, rfl⟩

/-- C7 witness. -/
theorem refresh_precondition_and_post_witness :
    runRefresh stNoRT [.success (.obj [])] =
      some ⟨.error (.jsError "Trying to refresh but there is no refresh token"),
        stNoRT, [.success (.obj [])], [.refreshAttempt]⟩ ∧
    (runRefresh stTok [.success (.obj [])]).map (fun r => (r.leftover, r.events)) =
      some ([], [.refreshAttempt,
        .http "POST" "http://auth.example.com/token" none
          [("content-type", "application/x-www-form-urlencoded")]
          (some "grant_type=refresh_token&refresh_token=R1")]) := by
  have h := refresh_precondition_and_post stNoRT
  have h2 := refresh_precondition_and_post stTok
  have hrun : runRefresh stTok [.success (.obj [])] =
      some ⟨.ok (.obj []),
        ({ stTok with tokenResponse := some [("access_token", JSON.str "A1"), ("refresh_token", JSON.str "R1"), ("patient", JSON.str "p1")] }),
        [], [.refreshAttempt,
          .http "POST" "http://auth.example.com/token" none
            [("content-type", "application/x-www-form-urlencoded")]
            (some "grant_type=refresh_token&refresh_token=R1")]⟩ := rfl
  have hc := h2.2 "R1" (.success (.obj [])) [] _ rfl rfl hrun
  refine ⟨h.1 rfl [.success (.obj [])], ?_⟩
  rw [hrun, Option.map_some', hc.1]

end SmartClient

namespace SmartClient

/-- C1: when a request fails with a 401 response while a refresh token is
present, `request` invokes `refresh` exactly once (one refresh attempt, one
token-endpoint call) and then, if the refresh resolved, replays the request
once with the identical spec (same url, method and body); if the refresh
rejected, its error propagates as the result, with the refresh run's state,
and no replay is dispatched. The replay is itself a full `request` run, so a
further qualifying 401 repeats the cycle with no overall cap. -/
theorem request_401_refreshes_and_replays (fuel : Nat) (st : ClientState)
    (opts : ReqOptions) (d : JSON) (rest : Oracle)
    (hrt : st.hasRefreshToken = true) :
    (∀ rr, runRefresh st rest = some rr →
      countRefresh rr.events = 1 ∧ countHttp rr.events = 1 ∧
      (∀ e, rr.result = .error e →
        runRequest (fuel + 1) st opts (.httpError 401 d :: rest) =
          some ⟨.error e, rr.state, rr.leftover,
            dispatchEvent (sendOptions st opts) :: rr.events, sendOptions st opts⟩) ∧
      (∀ dta, rr.result = .ok dta →
        runRequest (fuel + 1) st opts (.httpError 401 d :: rest) =
          (runRequest fuel rr.state (sendOptions st opts) rr.leftover).map
            (fun out => { out with
              events := dispatchEvent (sendOptions st opts) :: rr.events ++ out.events }))) ∧
    (sendOptions st opts).url = opts.url ∧
    (sendOptions st opts).method = opts.method ∧
    (sendOptions st opts).data = opts.data := by
  have hs := sendOptions_spec st opts
  refine ⟨?_, hs.1, hs.2.1, hs.2.2.1⟩
  intro rr hrr
  have hev := runRefresh_events st rest hrt rr hrr
  have hcond : ((401 : Nat) == 401 && st.hasRefreshToken) = true := by
    rw [hrt]
    rfl
  refine ⟨hev.1, hev.2, ?_, ?_⟩
  · intro e he
    rw [runRequest, if_pos hcond]
    simp only [hrr, he]
  · intro dta hok
    rw [runRequest, if_pos hcond]
    simp only [hrr, hok]

/-- C1 witness. -/
theorem request_401_refreshes_and_replays_witness :
    stTok.hasRefreshToken = true ∧
    (runRequest 2 stTok optsPlain
        [.httpError 401 .null, .success (.obj [("access_token", JSON.str "A2")]),
          .success (.str "okdata")]).map
      (fun r => (countRefresh r.events, countHttp r.events)) = some (1, 3) := by
  refine ⟨rfl, ?_⟩
  have h := (request_401_refreshes_and_replays 1 stTok optsPlain .null
      [.success (.obj [("access_token", JSON.str "A2")]), .success (.str "okdata")]
      rfl).1
  have hrr : runRefresh stTok
      [.success (.obj [("access_token", JSON.str "A2")]), .success (.str "okdata")] =
      some ⟨.ok (.obj [("access_token", JSON.str "A2")]),
        ({ stTok with tokenResponse := some [("refresh_token", JSON.str "R1"), ("patient", JSON.str "p1"), ("access_token", JSON.str "A2")] }),
        [.success (.str "okdata")],
        [.refreshAttempt,
          .http "POST" "http://auth.example.com/token" none
            [("content-type", "application/x-www-form-urlencoded")]
            (some "grant_type=refresh_token&refresh_token=R1")]⟩ := rfl
  have h2 := (h _ hrr).2.2.2 (.obj [("access_token", JSON.str "A2")]) rfl
  rw [h2]
  rfl

/-- C2 counterexample: with `maxPages = 0` over a two-page chain, `getPages`
does not stop after the first page: the pre-decremented counter becomes `-1`,
which is truthy, so the next link is followed; the run fetches both pages
(two HTTP dispatches) and returns the entries of both, not the entries of
the first page only. -/
theorem getPages_maxPagesZero_counterexample :
    ((runGetPages 5 stPlain optsPlain 0 [] oracle2).map
        (fun r => (r.result, countHttp r.events))) =
      some (.ok [.str "e1", .str "e2", .str "e3", .str "e4"], 2) ∧
    ¬ (((runGetPages 5 stPlain optsPlain 0 [] oracle2).map
        (fun r => (r.result, countHttp r.events))) =
      some (.ok [.str "e1", .str "e2"], 1)) := by
  have h1 : ((runGetPages 5 stPlain optsPlain 0 [] oracle2).map
        (fun r => (r.result, countHttp r.events))) =
      some (.ok [.str "e1", .str "e2", .str "e3", .str "e4"], 2) := rfl
  refine ⟨h1, fun h => ?_⟩
  rw [h1] at h
  simp at h

/-- C2 (amended): the page counter starts at `maxPages` and is pre-decremented
once per fetched page after consuming that page, never before the first
fetch; iteration stops when the decremented counter is exactly zero or the
current page has no next link. Over three linked pages `maxPages = 100`
returns all entries of all three pages in order (3 fetches), `maxPages = 2`
returns the entries of pages 1 and 2 (2 fetches), `maxPages = 1` returns only
page 1; a `maxPages` of 0 never makes the decremented counter zero, so the
walk continues through every linked page (3 fetches) instead of stopping
after the first page. -/
theorem getPages_pagination_amended :
    ((runGetPages 5 stPlain optsPlain 100 [] oracle3).map
        (fun r => (r.result, countHttp r.events)) =
      some (.ok [.str "e1", .str "e2", .str "e3", .str "e4", .str "e5", .str "e6"], 3)) ∧
    ((runGetPages 5 stPlain optsPlain 2 [] oracle3).map
        (fun r => (r.result, countHttp r.events)) =
      some (.ok [.str "e1", .str "e2", .str "e3", .str "e4"], 2)) ∧
    ((runGetPages 5 stPlain optsPlain 1 [] oracle3).map
        (fun r => (r.result, countHttp r.events)) =
      some (.ok [.str "e1", .str "e2"], 1)) ∧
    ((runGetPages 5 stPlain optsPlain 0 [] oracle3).map
        (fun r => (r.result, countHttp r.events)) =
      some (.ok [.str "e1", .str "e2", .str "e3", .str "e4", .str "e5", .str "e6"], 3)) := by
  exact ⟨rfl, rfl, rfl, rfl⟩

/-- C8: a failing response (outside the 401-with-refresh-token recovery)
whose body has resourceType OperationOutcome and a non-empty issue array
rejects with an Error whose message concatenates, one line per issue, each
issue's severity, code and diagnostics separated by single spaces. -/
theorem request_operation_outcome_message (st : ClientState) (opts : ReqOptions)
    (status : Nat) (d : JSON) (issues : List JSON) (fuel : Nat) (rest : Oracle)
    (hres : d.get "resourceType" = some (.str "OperationOutcome"))
    (hiss : d.get "issue" = some (.arr issues))
    (hne : issues ≠ [])
    (hnot : (status == 401 && st.hasRefreshToken) = false) :
    runRequest (fuel + 1) st opts (.httpError status d :: rest) =
      some ⟨.error (.jsError (String.intercalate "\n" (issues.map issueLine))),
        st, rest, [dispatchEvent (sendOptions st opts)], sendOptions st opts⟩ := by
  have hoo : isOperationOutcome d = true := by
    unfold isOperationOutcome
    rw [hres]
    rfl
  have hlen : lengthTruthy (d.get "issue") = .ok true := by
    rw [hiss]
    cases issues with
    | nil => exact absurd rfl hne
    | cons i is => rfl
  have hval : responseErrorValue status d =
      .jsError (String.intercalate "\n" (issues.map issueLine)) := by
    simp only [responseErrorValue]
    rw [if_pos hoo, hlen, hiss]
  rw [runRequest, if_neg (by simp [hnot])]
  simp only [hval]

/-- C8 witness: the spec example, a single issue with severity error, code
invalid and diagnostics bad param. -/
theorem request_operation_outcome_message_witness :
    stPlain.hasRefreshToken = false ∧
    runRequest 1 stPlain optsPlain [.httpError 400 ooIssueBody] =
      some ⟨.error (.jsError "error invalid bad param"), stPlain, [],
        [dispatchEvent (sendOptions stPlain optsPlain)],
        sendOptions stPlain optsPlain⟩ := by
  refine ⟨rfl, ?_⟩
  have h := request_operation_outcome_message stPlain optsPlain 400 ooIssueBody
    [.obj [("severity", JSON.str "error"), ("code", JSON.str "invalid"),
      ("diagnostics", JSON.str "bad param")]]
    0 [] rfl rfl (by simp) rfl
  rw [h]
  rfl

/-- C9 counterexample: a failing response whose body has resourceType
OperationOutcome but no issue list does not propagate the original error:
reading the length of the absent issue list throws a TypeError, which becomes
the rejection instead of the original error object. -/
theorem request_oo_missing_issue_counterexample :
    runRequest 1 stPlain optsPlain [.httpError 500 ooNoIssueBody] =
      some ⟨.error (.typeError "Cannot read properties of undefined (reading length)"),
        stPlain, [], [dispatchEvent (sendOptions stPlain optsPlain)],
        sendOptions stPlain optsPlain⟩ ∧
    JSError.typeError "Cannot read properties of undefined (reading length)" ≠
      JSError.axiosErr 500 ooNoIssueBody := by
  exact ⟨rfl, fun h => JSError.noConfusion h⟩

/-- C9 (amended): outside the 401-with-refresh-token recovery, a failing
response whose body is not an OperationOutcome, or is an OperationOutcome
with an empty issue array, propagates the original error object unchanged; a
body with resourceType OperationOutcome but an absent issue list instead
rejects with a TypeError from reading the length of an undefined value; a
failure with no response received rejects with the fixed no-response error. -/
theorem request_error_propagation_amended (st : ClientState) (opts : ReqOptions)
    (fuel : Nat) (status : Nat) (d : JSON) (rest : Oracle) :
    ((status == 401 && st.hasRefreshToken) = false →
      ((isOperationOutcome d = false →
        runRequest (fuel + 1) st opts (.httpError status d :: rest) =
          some ⟨.error (.axiosErr status d), st, rest,
            [dispatchEvent (sendOptions st opts)], sendOptions st opts⟩) ∧
      (isOperationOutcome d = true → d.get "issue" = some (.arr []) →
        runRequest (fuel + 1) st opts (.httpError status d :: rest) =
          some ⟨.error (.axiosErr status d), st, rest,
            [dispatchEvent (sendOptions st opts)], sendOptions st opts⟩) ∧
      (isOperationOutcome d = true → d.get "issue" = none →
        runRequest (fuel + 1) st opts (.httpError status d :: rest) =
          some ⟨.error (.typeError "Cannot read properties of undefined (reading length)"),
            st, rest, [dispatchEvent (sendOptions st opts)],
            sendOptions st opts⟩))) ∧
    runRequest (fuel + 1) st opts (.networkError :: rest) =
      some ⟨.error (.jsError noFhirResponseMessage), st, rest,
        [dispatchEvent (sendOptions st opts)], sendOptions st opts⟩ := by
  constructor
  · intro hnot
    refine ⟨?_, ?_, ?_⟩
    · intro hoo
      have hval : responseErrorValue status d = .axiosErr status d := by
        simp only [responseErrorValue]
        rw [if_neg (by simp [hoo])]
      rw [runRequest, if_neg (by simp [hnot])]
      simp only [hval]
    · intro hoo hiss
      have hval : responseErrorValue status d = .axiosErr status d := by
        simp only [responseErrorValue]
        rw [if_pos hoo, hiss]
        rfl
      rw [runRequest, if_neg (by simp [hnot])]
      simp only [hval]
    · intro hoo hiss
      have hval : responseErrorValue status d =
          .typeError "Cannot read properties of undefined (reading length)" := by
        simp only [responseErrorValue]
        rw [if_pos hoo, hiss]
        rfl
      rw [runRequest, if_neg (by simp [hnot])]
      simp only [hval]
  · rw [runRequest]

/-- C9 witness. -/
theorem request_error_propagation_amended_witness :
    runRequest 1 stPlain optsPlain [.httpError 418 (.str "teapot")] =
      some ⟨.error (.axiosErr 418 (.str "teapot")), stPlain, [],
        [dispatchEvent (sendOptions stPlain optsPlain)],
        sendOptions stPlain optsPlain⟩ ∧
    runRequest 1 stPlain optsPlain [.networkError] =
      some ⟨.error (.jsError noFhirResponseMessage), stPlain, [],
        [dispatchEvent (sendOptions stPlain optsPlain)],
        sendOptions stPlain optsPlain⟩ := by
  have h := request_error_propagation_amended stPlain optsPlain 0 418 (.str "teapot") []
  exact ⟨(h.1 rfl).1 rfl, h.2⟩

/-- C10: a successful refresh shallow-merges the returned object into
`tokenResponse`: every field named in the response takes its new value and
every previously present field not named keeps its old value (second object
wins on shared keys under lookup); `refresh` resolves with the returned
data. -/
theorem refresh_merges_token_response (st : ClientState)
    (tr fs : List (String × JSON)) (rest : Oracle)
    (h1 : st.tokenResponse = some tr) (h2 : st.hasRefreshToken = true) :
    (∀ run, runRefresh st (.success (.obj fs) :: rest) = some run →
      run.result = .ok (.obj fs) ∧
      run.state = { st with tokenResponse := some (spread tr fs) } ∧
      run.leftover = rest) ∧
    (∀ k, (spread tr fs).lookup k = ((fs.lookup k).or (tr.lookup k))) := by
  constructor
  · intro run h
    rw [runRefresh, h2] at h
    simp only [Bool.true_eq_false, if_false] at h
    injection h with h
    rw [← h]
    refine ⟨rfl, ?_, rfl⟩
    rw [h1]
    rfl
  · intro k
    exact lookup_spread tr fs k

/-- C10 witness. -/
theorem refresh_merges_token_response_witness :
    (runRefresh stTok [.success (.obj mergeNew)]).map
        (fun r => r.state.tokenResponse) = some (some (spread mergeOld mergeNew)) ∧
    (spread mergeOld mergeNew).lookup "access_token" = some (.str "A2") ∧
    (spread mergeOld mergeNew).lookup "patient" = some (.str "p1") ∧
    (spread mergeOld mergeNew).lookup "expires_in" = some (.num 3600) := by
  have h := refresh_merges_token_response stTok mergeOld mergeNew [] rfl rfl
  have hrun : runRefresh stTok [.success (.obj mergeNew)] =
      some ⟨.ok (.obj mergeNew),
        ({ stTok with tokenResponse := some (spread mergeOld mergeNew) }),
        [], [.refreshAttempt,
          .http "POST" "http://auth.example.com/token" none
            [("content-type", "application/x-www-form-urlencoded")]
            (some "grant_type=refresh_token&refresh_token=R1")]⟩ := rfl
  have hc := h.1 _ hrun
  refine ⟨?_, rfl, rfl, rfl⟩
  rw [hrun]
  simp only [Option.map_some', hc.2.1]

end SmartClient
